import Mathlib

/-!
Verification development for the `api-replay` library (Bun/TypeScript HTTP
record-and-replay for integration tests).

The definitions below are a shallow embedding of the library's source:
`src/matcher.ts` (RequestMatcher), `src/recorder.ts` (Recorder and the
ReplayAPI fetch interceptor), `src/replayer.ts` (Replayer) and
`src/utils.ts`.  JavaScript strings are modelled as Lean `String`,
`null`-able values as `Option`, JS objects used as string-keyed records as
association lists, and `JSON.parse`/`JSON.stringify` by an executable JSON
model (`Json.parse` / `Json.stringify`) in which numbers are kept as a
canonical mantissa/base-10-exponent pair and object key order is the
insertion (textual) order, as in JavaScript.
-/

set_option maxRecDepth 4000

/-- Model of `String.prototype.toLowerCase` restricted to the data that
reaches it in this code base (ASCII letters, digits, `-`, `_`):
per-character ASCII lowercasing. -/
def jsToLower (s : String) : String :=
  String.mk (s.toList.map Char.toLower)

mutual

/-- JSON structured values.  Objects keep their key-value pairs in insertion
order, mirroring JavaScript objects produced by `JSON.parse`.  Arrays and
objects use the dedicated mutual types `JsonList` / `JsonObj` so that every
function below is structurally recursive. -/
inductive Json where
  | null : Json
  | bool : Bool → Json
  | num : Int → Int → Json
  | str : String → Json
  | arr : JsonList → Json
  | obj : JsonObj → Json

/-- The element list of a JSON array. -/
inductive JsonList where
  | nil : JsonList
  | cons : Json → JsonList → JsonList

/-- The ordered member list of a JSON object. -/
inductive JsonObj where
  | nil : JsonObj
  | cons : String → Json → JsonObj → JsonObj

end

/-- First value stored under a key in a JSON object. -/
def JsonObj.lookupKey : JsonObj → String → Option Json
  | .nil, _ => none
  | .cons k v rest, key => if k = key then some v else rest.lookupKey key

/-- Remove the first member with the given key from a JSON object. -/
def JsonObj.eraseKey : JsonObj → String → JsonObj
  | .nil, _ => .nil
  | .cons k v rest, key => if k = key then rest else .cons k v (rest.eraseKey key)

namespace Json

/-- Escape one character the way `JSON.stringify` quotes string contents. -/
def escapeChar (c : Char) : String :=
  if c = '"' then "\\\""
  else if c = '\\' then "\\\\"
  else if c = '\n' then "\\n"
  else if c = '\r' then "\\r"
  else if c = '\t' then "\\t"
  else if c = '\x08' then "\\b"
  else if c = '\x0c' then "\\f"
  else if c.toNat < 0x20 then
    "\\u00" ++ String.mk [Nat.digitChar (c.toNat / 16), Nat.digitChar (c.toNat % 16)]
  else String.singleton c

/-- Quote a string as a JSON string literal, as `JSON.stringify` does. -/
def quoteString (s : String) : String :=
  "\"" ++ String.join (s.toList.map escapeChar) ++ "\""

/-- Decimal digit characters of a natural number, most significant first
(fueled so that every recursion here is structural). -/
def natDigitsAux : Nat → Nat → List Char → List Char
  | 0, _, acc => acc
  | fuel + 1, n, acc =>
    if n = 0 then acc else natDigitsAux fuel (n / 10) (Nat.digitChar (n % 10) :: acc)

/-- Decimal digit characters of a natural number, most significant first. -/
def natDigits (n : Nat) : List Char :=
  if n = 0 then ['0'] else natDigitsAux (n + 1) n []

/-- Render a canonical mantissa/exponent number the way JavaScript prints the
corresponding double (decimal notation; exponents are already folded in). -/
def numToString (m e : Int) : String :=
  if 0 ≤ e then
    (if m < 0 then "-" else "") ++ String.mk (natDigits ((m * (10 : Int) ^ e.toNat).natAbs))
  else
    let d := e.natAbs
    let digits := natDigits m.natAbs
    let digits := if digits.length ≤ d then
        List.replicate (d + 1 - digits.length) '0' ++ digits
      else digits
    let sign := if m < 0 then "-" else ""
    sign ++ String.mk (digits.take (digits.length - d)) ++ "."
      ++ String.mk (digits.drop (digits.length - d))

mutual

/-- Model of `JSON.stringify` (no indentation): JS value serialization with
object keys in insertion order. -/
def stringify : Json → String
  | .null => "null"
  | .bool b => if b then "true" else "false"
  | .num m e => numToString m e
  | .str s => quoteString s
  | .arr xs => "[" ++ stringifyArr xs ++ "]"
  | .obj kvs => "\x7b" ++ stringifyObj kvs ++ "\x7d"

/-- Serialize the elements of a JSON array, comma separated. -/
def stringifyArr : JsonList → String
  | .nil => ""
  | .cons x .nil => stringify x
  | .cons x (.cons y xs) => stringify x ++ "," ++ stringifyArr (.cons y xs)

/-- Serialize the members of a JSON object, comma separated, in list order. -/
def stringifyObj : JsonObj → String
  | .nil => ""
  | .cons k v .nil => quoteString k ++ ":" ++ stringify v
  | .cons k v (.cons k' v' kvs) =>
    quoteString k ++ ":" ++ stringify v ++ "," ++ stringifyObj (.cons k' v' kvs)

end

end Json

/-- JSON insignificant whitespace characters (RFC 8259 / `JSON.parse`). -/
def isJsonWs (c : Char) : Bool :=
  c = ' ' || c = '\t' || c = '\n' || c = '\r'

/-- Drop leading JSON whitespace. -/
def skipWs : List Char → List Char
  | [] => []
  | c :: cs => if isJsonWs c then skipWs cs else c :: cs

/-- Numeric value of a decimal digit character, if it is one. -/
def digitVal (c : Char) : Option Nat :=
  if '0' ≤ c ∧ c ≤ '9' then some (c.toNat - '0'.toNat) else none

/-- Split a longest leading run of decimal digits off a character list. -/
def takeDigits : List Char → List Char × List Char
  | [] => ([], [])
  | c :: cs =>
    if '0' ≤ c ∧ c ≤ '9' then
      let (ds, rest) := takeDigits cs
      (c :: ds, rest)
    else ([], c :: cs)

/-- Natural number denoted by a list of decimal digit characters. -/
def digitsToNat (ds : List Char) : Nat :=
  ds.foldl (fun acc c => acc * 10 + (c.toNat - '0'.toNat)) 0

/-- Strip trailing `'0'` characters, returning the stripped list and how many
zeros were removed. -/
def stripTrailingZeros (ds : List Char) : List Char × Nat :=
  let rev := ds.reverse
  let zeros := rev.takeWhile (fun c => c = '0')
  ((rev.drop zeros.length).reverse, zeros.length)

/-- Canonical mantissa/exponent for the JSON number with integer digits
`intDs`, fraction digits `fracDs`, exponent `exp` and sign `neg`: trailing
zeros of the combined digit string are folded into the exponent, and zero is
represented as `(0, 0)`.  Two JSON number literals denote the same JS double
(within double precision) exactly when they get the same canonical pair. -/
def canonNum (neg : Bool) (intDs fracDs : List Char) (exp : Int) : Int × Int :=
  let (core, dropped) := stripTrailingZeros (intDs ++ fracDs)
  if core = [] then (0, 0)
  else
    let mag : Int := Int.ofNat (digitsToNat core)
    ((if neg then -mag else mag), exp - Int.ofNat fracDs.length + Int.ofNat dropped)

/-- Value of a hexadecimal digit character, if it is one. -/
def hexVal (c : Char) : Option Nat :=
  if '0' ≤ c ∧ c ≤ '9' then some (c.toNat - '0'.toNat)
  else if 'a' ≤ c ∧ c ≤ 'f' then some (c.toNat - 'a'.toNat + 10)
  else if 'A' ≤ c ∧ c ≤ 'F' then some (c.toNat - 'A'.toNat + 10)
  else none

/-- Decode one escape sequence body (the part after `\`) of a JSON string. -/
def unescape : List Char → Option (Char × List Char)
  | '"' :: rest => some ('"', rest)
  | '\\' :: rest => some ('\\', rest)
  | '/' :: rest => some ('/', rest)
  | 'b' :: rest => some ('\x08', rest)
  | 'f' :: rest => some ('\x0c', rest)
  | 'n' :: rest => some ('\n', rest)
  | 'r' :: rest => some ('\r', rest)
  | 't' :: rest => some ('\t', rest)
  | 'u' :: h1 :: h2 :: h3 :: h4 :: rest =>
    match hexVal h1, hexVal h2, hexVal h3, hexVal h4 with
    | some a, some b, some c, some d =>
      some (Char.ofNat (((a * 16 + b) * 16 + c) * 16 + d), rest)
    | _, _, _, _ => none
  | _ => none

/-- Scan the body of a JSON string literal (after the opening quote) up to the
closing quote; rejects raw control characters, decodes escapes. -/
def parseStrBody : Nat → List Char → Option (List Char × List Char)
  | 0, _ => none
  | _, [] => none
  | fuel + 1, c :: cs =>
    if c = '"' then some ([], cs)
    else if c = '\\' then
      match unescape cs with
      | none => none
      | some (d, rest) =>
        match parseStrBody fuel rest with
        | none => none
        | some (body, rest') => some (d :: body, rest')
    else if c.toNat < 0x20 then none
    else
      match parseStrBody fuel cs with
      | none => none
      | some (body, rest') => some (c :: body, rest')

/-- Parse a JSON number starting at the current position (sign already not
consumed); returns its canonical value.  Follows the RFC 8259 grammar that
`JSON.parse` enforces, including the no-leading-zero rule. -/
def parseNumber (cs : List Char) : Option (Json × List Char) :=
  let (neg, cs) := match cs with
    | '-' :: rest => (true, rest)
    | _ => (false, cs)
  let (intDs, cs) := takeDigits cs
  match intDs with
  | [] => none
  | d :: ds =>
    if d = '0' ∧ ds ≠ [] then none
    else
      let (fracDs, cs) := match cs with
        | '.' :: rest =>
          let (ds, rest') := takeDigits rest
          (ds, if ds = [] then '.' :: rest else rest')
        | _ => ([], cs)
      -- a '.' with no digits after it is a syntax error
      match cs with
      | '.' :: _ => none
      | _ =>
        let (expOk, expVal, cs) := match cs with
          | 'e' :: rest | 'E' :: rest =>
            let (sgn, rest) := match rest with
              | '+' :: r => ((1 : Int), r)
              | '-' :: r => ((-1 : Int), r)
              | _ => ((1 : Int), rest)
            let (eds, rest') := takeDigits rest
            if eds = [] then (false, (0 : Int), rest')
            else (true, sgn * Int.ofNat (digitsToNat eds), rest')
          | _ => (true, (0 : Int), cs)
        if expOk then
          let (m, e) := canonNum neg intDs fracDs expVal
          some (Json.num m e, cs)
        else none

/-- Prepend the object member `k := v` to the members parsed after it, with
JavaScript duplicate-key semantics: the first occurrence of a key fixes its
position, the last occurrence fixes its value. -/
def consJsonKey (k : String) (v : Json) (kvs : JsonObj) : JsonObj :=
  match kvs.lookupKey k with
  | some laterVal => .cons k laterVal (kvs.eraseKey k)
  | none => .cons k v kvs

mutual

/-- Fueled model of `JSON.parse`'s value grammar: parses one JSON value and
returns it with the unconsumed remainder. -/
def parseVal : Nat → List Char → Option (Json × List Char)
  | 0, _ => none
  | fuel + 1, cs =>
    match skipWs cs with
    | [] => none
    | 'n' :: 'u' :: 'l' :: 'l' :: rest => some (Json.null, rest)
    | 't' :: 'r' :: 'u' :: 'e' :: rest => some (Json.bool true, rest)
    | 'f' :: 'a' :: 'l' :: 's' :: 'e' :: rest => some (Json.bool false, rest)
    | '"' :: rest =>
      match parseStrBody (rest.length + 1) rest with
      | none => none
      | some (body, rest') => some (Json.str (String.mk body), rest')
    | '[' :: rest =>
      (match skipWs rest with
      | ']' :: rest' => some (Json.arr .nil, rest')
      | other => parseArrItems fuel other)
    | '\x7b' :: rest =>
      (match skipWs rest with
      | '\x7d' :: rest' => some (Json.obj .nil, rest')
      | other => parseObjItems fuel other)
    | cs' => parseNumber cs'

/-- Parse the comma-separated items of a non-empty JSON array, including the
closing bracket. -/
def parseArrItems (fuel : Nat) (cs : List Char) : Option (Json × List Char) :=
  match fuel with
  | 0 => none
  | fuel + 1 =>
    match parseVal fuel cs with
    | none => none
    | some (v, rest) =>
      match skipWs rest with
      | ',' :: rest' =>
        (match parseArrItems fuel rest' with
        | some (Json.arr vs, rest'') => some (Json.arr (.cons v vs), rest'')
        | _ => none)
      | ']' :: rest' => some (Json.arr (.cons v .nil), rest')
      | _ => none

/-- Parse the comma-separated members of a non-empty JSON object, including
the closing brace.  A repeated key keeps its first position but takes the
later value, as JavaScript object assignment does. -/
def parseObjItems (fuel : Nat) (cs : List Char) : Option (Json × List Char) :=
  match fuel with
  | 0 => none
  | fuel + 1 =>
    match skipWs cs with
    | '"' :: rest =>
      (match parseStrBody (rest.length + 1) rest with
      | none => none
      | some (keyChars, rest') =>
        match skipWs rest' with
        | ':' :: rest'' =>
          (match parseVal fuel rest'' with
          | none => none
          | some (v, rest3) =>
            let k := String.mk keyChars
            match skipWs rest3 with
            | ',' :: rest4 =>
              (match parseObjItems fuel rest4 with
              | some (Json.obj kvs, rest5) => some (Json.obj (consJsonKey k v kvs), rest5)
              | _ => none)
            | '\x7d' :: rest4 => some (Json.obj (.cons k v .nil), rest4)
            | _ => none)
        | _ => none)
    | _ => none

end

/-- Model of `JSON.parse`: parse a complete JSON document (value plus
surrounding whitespace), or `none` where `JSON.parse` throws. -/
def Json.parse (s : String) : Option Json :=
  match parseVal (2 * s.length + 2) s.toList with
  | none => none
  | some (j, rest) => if skipWs rest = [] then some j else none

/-! ## Data model (`src/types.ts`) and shared helpers (`src/utils.ts`) -/

/-- First value stored under a key in an association list; `none` models both
`URLSearchParams.get` returning `null` and a JS object lookup returning
`undefined` (object keys are unique, so first = only). -/
def getFirst : List (String × String) → String → Option String
  | [], _ => none
  | (k, v) :: rest, p => if k = p then some v else getFirst rest p

/-- JS object assignment `m[k] = v`: the first assignment to a key fixes its
position, later assignments overwrite the value. -/
def setObjKey (m : List (String × String)) (k v : String) : List (String × String) :=
  if (m.map Prod.fst).contains k then
    m.map fun kv => if kv.1 = k then (k, v) else kv
  else m ++ [(k, v)]

/-- Key set of `new Set([...])` in iteration (first-insertion) order. -/
def dedupKeys (l : List String) : List String :=
  l.foldl (fun acc k => if acc.contains k then acc else acc ++ [k]) []

/-- Model of JS `String.prototype.includes`. -/
def strIncludes (s pat : String) : Bool :=
  decide (pat.toList <:+: s.toList)

/-- Parsed form of an absolute URL.  The source keeps URLs as strings and
re-parses them with `new URL(...)` wherever it needs the `pathname` or the
`searchParams`; the model keeps the parsed fields directly. -/
structure Url where
  scheme : String
  host : String
  pathname : String
  query : List (String × String)
deriving DecidableEq

/-- MatchingConfig with the optional-field defaults already applied, exactly
as the source reads them: `config.include?.headers || []`,
`config.exclude?.query || []`, `config.exclude?.body === true`,
`config.recordFailedResponses === true`.  (`exclude.headers`, `debug` and
`recordingsDir` are never read by the matcher, recorder or replayer in this
snapshot, so they are not modelled.) -/
structure MatchingConfig where
  includeHeaders : List String := []
  excludeQuery : List String := []
  excludeBody : Bool := false
  recordFailedResponses : Bool := false
deriving DecidableEq

/-- RecordedRequest: a stored request descriptor (header keys lowercased,
`body = none` for `null`). -/
structure RecordedRequest where
  method : String
  url : Url
  headers : List (String × String)
  body : Option String
deriving DecidableEq

/-- RecordedResponse: a stored response descriptor. -/
structure RecordedResponse where
  status : Nat
  headers : List (String × String)
  body : String
deriving DecidableEq

/-- RecordedCall: one captured request/response exchange. -/
structure RecordedCall where
  request : RecordedRequest
  response : RecordedResponse
deriving DecidableEq

/-- Meta block of a recording file. -/
structure RecordingMeta where
  recordedAt : String
  testName : String
  replayAPIVersion : String
deriving DecidableEq

/-- RecordingFile: the on-disk fixture structure. -/
structure RecordingFile where
  meta : RecordingMeta
  calls : List RecordedCall
deriving DecidableEq

/-- A live `Request` as the interceptor sees it, already materialized:
`headers` lists the entries the platform `Headers` object iterates, `body`
is the raw body text (`none` when `request.body` is `null`). -/
structure RequestData where
  method : String
  url : Url
  headers : List (String × String)
  body : Option String
deriving DecidableEq

/-- A live `Response`, already materialized. -/
structure ResponseData where
  status : Nat
  headers : List (String × String)
  body : String
deriving DecidableEq

/-- Model of `Headers.get(name)`: case-insensitive lookup. -/
def headersGet (hs : List (String × String)) (name : String) : Option String :=
  getFirst (hs.map fun kv => (jsToLower kv.1, kv.2)) (jsToLower name)

/-- Model of `headersToObject` (`src/utils.ts`): build a plain object from the
header entries, lowercasing every key. -/
def headersToObject (hs : List (String × String)) : List (String × String) :=
  hs.foldl (fun m kv => setObjKey m (jsToLower kv.1) kv.2) []

/-- Model of `parseRequestBody` (`src/utils.ts`): `null` bodies stay `null`;
`application/json` bodies are parsed and re-serialized, with a parse failure
caught and turned into `null`; other content types pass the body text
through (the multipart branch's form-field rendering is represented by that
same body text, which no claim depends on). -/
def parseRequestBody (req : RequestData) : Option String :=
  match req.body with
  | none => none
  | some text =>
    let ct := (headersGet req.headers "content-type").getD ""
    if strIncludes ct "application/json" then
      match Json.parse text with
      | some j => some (Json.stringify j)
      | none => none
    else some text

/-- Model of `extractBody` (`src/utils.ts`): `application/json` responses are
parsed and re-serialized, falling back to the raw text when parsing fails;
other content types pass through. -/
def extractBody (resp : ResponseData) : String :=
  let ct := (headersGet resp.headers "content-type").getD ""
  if strIncludes ct "application/json" then
    match Json.parse resp.body with
    | some j => Json.stringify j
    | none => resp.body
  else resp.body

/-! ## Request matcher (`src/matcher.ts`) -/

namespace RequestMatcher

/-- Model of `RequestMatcher.extractRequestData`. -/
def extractRequestData (req : RequestData) : RecordedRequest :=
  { method := req.method
    url := req.url
    headers := headersToObject req.headers
    body := parseRequestBody req }

/-- Model of `RequestMatcher.matchQueryParams`: over the set of parameter
names of both URLs, skipping excluded names, the first values must agree. -/
def matchQueryParams (cfg : MatchingConfig) (recordedUrl incomingUrl : Url) : Bool :=
  let excludedParams := cfg.excludeQuery
  let allParams := dedupKeys (recordedUrl.query.map Prod.fst ++ incomingUrl.query.map Prod.fst)
  allParams.all fun param =>
    excludedParams.contains param ||
      decide (getFirst recordedUrl.query param = getFirst incomingUrl.query param)

/-- Model of `RequestMatcher.matchHeaders`: with an empty include list
headers are not matched at all; otherwise each named header's value (under
the lowercased name) must agree, `undefined` included. -/
def matchHeaders (cfg : MatchingConfig) (recordedHeaders incomingHeaders : List (String × String)) : Bool :=
  let includedHeaders := cfg.includeHeaders
  if includedHeaders.isEmpty then true
  else includedHeaders.all fun header =>
    decide (getFirst recordedHeaders (jsToLower header) = getFirst incomingHeaders (jsToLower header))

/-- Model of `RequestMatcher.matchBody`: skip when body matching is excluded;
then `null` vs non-`null` analysis; two non-empty bodies are compared as
re-serialized JSON when both parse and as exact strings otherwise (an empty
string body never parses, so it always falls to string comparison). -/
def matchBody (cfg : MatchingConfig) (recordedBody incomingBody : Option String) : Bool :=
  if cfg.excludeBody then true
  else
    match recordedBody, incomingBody with
    | none, none => true
    | none, some _ => false
    | some _, none => false
    | some rb, some ib =>
      if rb ≠ "" ∧ ib ≠ "" then
        match Json.parse rb, Json.parse ib with
        | some rj, some ij => decide (Json.stringify rj = Json.stringify ij)
        | _, _ => decide (rb = ib)
      else decide (rb = ib)

/-- Model of `RequestMatcher.matches` (named `matches'` because `matches` is
a Lean keyword): the short-circuit chain method → pathname → query →
headers → body.  Note the URL comparison reads only `pathname`; scheme and
host are never consulted. -/
def matches' (cfg : MatchingConfig) (recorded : RecordedRequest) (incoming : RequestData) : Bool :=
  let incomingData := extractRequestData incoming
  decide (recorded.method = incomingData.method)
    && decide (recorded.url.pathname = incomingData.url.pathname)
    && matchQueryParams cfg recorded.url incomingData.url
    && matchHeaders cfg recorded.headers incomingData.headers
    && matchBody cfg recorded.body incomingData.body

end RequestMatcher

/-! ## Capture store (`src/recorder.ts`, class `Recorder`) -/

namespace Recorder

/-- Model of `Recorder.recordCall`: builds the exchange from the request and
response exactly as received (all headers, full URL, parsed body; no field
filtering and no status check) and appends it to the session list. -/
def recordCall (req : RequestData) (resp : ResponseData)
    (recordedCalls : List RecordedCall) : List RecordedCall :=
  recordedCalls ++
    [{ request :=
        { method := req.method
          url := req.url
          headers := headersToObject req.headers
          body := parseRequestBody req }
       response :=
        { status := resp.status
          headers := headersToObject resp.headers
          body := extractBody resp } }]

/-- Model of `Recorder.saveRecording`: `some f` means one file write with
content `f`, `none` would mean no write.  The source builds
`{meta, calls: this.recordedCalls}` and writes it unconditionally — there is
no emptiness check and no merging with previously loaded calls. -/
def saveRecording (recordedAt testName : String)
    (recordedCalls : List RecordedCall) : Option RecordingFile :=
  some { meta := { recordedAt := recordedAt
                   testName := testName
                   replayAPIVersion := "1.0.0" }
         calls := recordedCalls }

/-- Model of `Recorder.findExistingCall`: scan this session's recorded calls
in order and return the first match. -/
def findExistingCall (cfg : MatchingConfig) (recordedCalls : List RecordedCall)
    (req : RequestData) : Option RecordedCall :=
  match recordedCalls with
  | [] => none
  | call :: rest =>
    if RequestMatcher.matches' cfg call.request req then some call
    else findExistingCall cfg rest req

end Recorder

/-! ## Playback engine (`src/replayer.ts`, class `Replayer`) -/

namespace Replayer

/-- Model of `Replayer.getMatchableCalls`: all loaded calls when the
replayer's config sets `recordFailedResponses`, otherwise only the calls
whose response status lies in `[200, 400)`. -/
def getMatchableCalls (cfg : MatchingConfig) (calls : List RecordedCall) : List RecordedCall :=
  if cfg.recordFailedResponses then calls
  else calls.filter fun call =>
    decide (200 ≤ call.response.status) && decide (call.response.status < 400)

/-- Model of `Replayer.filterHeaders` (diagnostics view): empty include list
⇒ empty object; otherwise only the included header names (lowercased) that
are present. -/
def filterHeaders (cfg : MatchingConfig) (headers : List (String × String)) : List (String × String) :=
  if cfg.includeHeaders.isEmpty then []
  else cfg.includeHeaders.foldl
    (fun filtered header =>
      match getFirst headers (jsToLower header) with
      | some v => setObjKey filtered (jsToLower header) v
      | none => filtered)
    []

/-- Model of `Replayer.filterQueryParams` (diagnostics view): drop the
excluded parameter names. -/
def filterQueryParams (cfg : MatchingConfig) (queryParams : List (String × String)) : List (String × String) :=
  queryParams.filter fun kv => !(cfg.excludeQuery.contains kv.1)

/-- Model of `Replayer.filterBody` (diagnostics view): `none` when body
matching is excluded. -/
def filterBody (cfg : MatchingConfig) (body : Option String) : Option String :=
  if cfg.excludeBody then none else body

/-- Model of `Replayer.shouldIncludeHeaders`. -/
def shouldIncludeHeaders (cfg : MatchingConfig) : Bool :=
  !cfg.includeHeaders.isEmpty

/-- Model of `Replayer.shouldIncludeBody`. -/
def shouldIncludeBody (cfg : MatchingConfig) : Bool :=
  !cfg.excludeBody

/-- Model of `Object.fromEntries(new URL(u).searchParams)`. -/
def paramsToObject (q : List (String × String)) : List (String × String) :=
  q.foldl (fun m kv => setObjKey m kv.1 kv.2) []

/-- One candidate entry of the no-match diagnostics: headers appear only when
they are considered, the body only as a length hint and only when the body
is considered and the stored body is truthy (non-null, non-empty). -/
structure AvailableRecording where
  method : String
  url : Url
  pathname : String
  queryParams : List (String × String)
  headers : Option (List (String × String))
  bodyLength : Option Nat
deriving DecidableEq

/-- The no-match diagnostics block (`SearchDetails` in `src/types.ts`):
optional fields model properties that are simply not set on the JS object. -/
structure SearchDetails where
  method : String
  url : Url
  pathname : String
  queryParams : List (String × String)
  headers : Option (List (String × String))
  body : Option (Option String)
  availableRecordings : List AvailableRecording
deriving DecidableEq

/-- Result of `Replayer.findMatchingCall`. -/
structure SearchResult where
  call : Option RecordedCall
  searchDetails : Option SearchDetails
deriving DecidableEq

/-- The matching loop inside `Replayer.findMatchingCall`: first matchable
call accepted by the matcher. -/
def findFirstMatch (matcherCfg : MatchingConfig) (availableCalls : List RecordedCall)
    (req : RequestData) : Option RecordedCall :=
  match availableCalls with
  | [] => none
  | call :: rest =>
    if RequestMatcher.matches' matcherCfg call.request req then some call
    else findFirstMatch matcherCfg rest req

/-- The per-candidate diagnostics entry built in `findMatchingCall`. -/
def availableRecordingOf (cfg : MatchingConfig) (call : RecordedCall) : AvailableRecording :=
  let recordingBodyLength : Option Nat :=
    match filterBody cfg call.request.body with
    | some s => if s ≠ "" then some s.length else none
    | none => none
  { method := call.request.method
    url := call.request.url
    pathname := call.request.url.pathname
    queryParams := filterQueryParams cfg (paramsToObject call.request.url.query)
    headers := if shouldIncludeHeaders cfg then some (filterHeaders cfg call.request.headers) else none
    bodyLength := if shouldIncludeBody cfg then recordingBodyLength else none }

/-- Model of `Replayer.findMatchingCall`: scan the matchable calls with the
matcher; on a miss, build the filtered diagnostics (the replayer's own
config `cfg` drives filtering, the session matcher's config `matcherCfg`
drives matching, as in the source). -/
def findMatchingCall (cfg matcherCfg : MatchingConfig) (calls : List RecordedCall)
    (req : RequestData) : SearchResult :=
  let availableCalls := getMatchableCalls cfg calls
  match findFirstMatch matcherCfg availableCalls req with
  | some call => { call := some call, searchDetails := none }
  | none =>
    let requestData := RequestMatcher.extractRequestData req
    { call := none
      searchDetails := some
        { method := requestData.method
          url := requestData.url
          pathname := requestData.url.pathname
          queryParams := filterQueryParams cfg (paramsToObject requestData.url.query)
          headers := if shouldIncludeHeaders cfg then some (filterHeaders cfg requestData.headers) else none
          body := if shouldIncludeBody cfg then some (filterBody cfg requestData.body) else none
          availableRecordings := availableCalls.map (availableRecordingOf cfg) } }

/-- Model of `Replayer.createResponse`: rebuild a live response from the
stored descriptor; a truthy body under a JSON content type is re-serialized
when it parses, everything else passes through verbatim. -/
def createResponse (recorded : RecordedResponse) : ResponseData :=
  let ct := (headersGet recorded.headers "content-type").getD ""
  let body :=
    if strIncludes ct "application/json" ∧ recorded.body ≠ "" then
      match Json.parse recorded.body with
      | some j => Json.stringify j
      | none => recorded.body
    else recorded.body
  { status := recorded.status, headers := recorded.headers, body := body }

end Replayer

/-! ## Session controller (`src/index.ts`, `ReplayAPI.createFetchInterceptor`) -/

/-- What one intercepted `fetch` call produces: a response served from a
stored exchange, a response from the live transport, or a thrown
`No matching recorded call found` error (replay mode only). -/
inductive Outcome where
  | fromRecording : ResponseData → Outcome
  | fromLive : ResponseData → Outcome
  | errorNoMatch : Option Replayer.SearchDetails → Outcome
deriving DecidableEq

/-- Record-mode branch of the fetch interceptor: ask `findExistingCall`
first; a hit returns the stored response rebuilt by the replayer with no
live call; a miss issues the live call, records it, and returns the live
response.  The `Nat` counts live transport calls issued by the step. -/
def interceptRecord (cfg : MatchingConfig) (live : RequestData → ResponseData)
    (recordedCalls : List RecordedCall) (req : RequestData) :
    List RecordedCall × Outcome × Nat :=
  match Recorder.findExistingCall cfg recordedCalls req with
  | some existingCall =>
    (recordedCalls, Outcome.fromRecording (Replayer.createResponse existingCall.response), 0)
  | none =>
    let resp := live req
    (Recorder.recordCall req resp recordedCalls, Outcome.fromLive resp, 1)

/-- Replay-mode branch of the fetch interceptor: ask `findMatchingCall`; a
hit returns the rebuilt stored response; a miss throws (no live call is
issued, nothing is recorded, and the loaded calls are left unchanged). -/
def interceptReplay (replayerCfg matcherCfg : MatchingConfig)
    (loadedCalls : List RecordedCall) (req : RequestData) : Outcome × Nat :=
  let searchResult := Replayer.findMatchingCall replayerCfg matcherCfg loadedCalls req
  match searchResult.call with
  | some matchedCall => (Outcome.fromRecording (Replayer.createResponse matchedCall.response), 0)
  | none => (Outcome.errorNoMatch searchResult.searchDetails, 0)

/-- Run a record-mode session over a list of requests: threads the recorded
call list through `interceptRecord`, collecting the per-call outcomes and
the total number of live transport calls. -/
def runRecord (cfg : MatchingConfig) (live : RequestData → ResponseData) :
    List RequestData → List RecordedCall → List RecordedCall × List Outcome × Nat
  | [], recordedCalls => (recordedCalls, [], 0)
  | req :: rest, recordedCalls =>
    let (st, outcome, n) := interceptRecord cfg live recordedCalls req
    let (stFinal, outcomes, m) := runRecord cfg live rest st
    (stFinal, outcome :: outcomes, n + m)

/-! ## Filename derivation (`src/utils.ts`, `testNameToFilename`) -/

/-- ASCII letter or digit (the alphanumeric part of `[a-zA-Z0-9\s\-_]`). -/
def isAlphanumAscii (c : Char) : Bool :=
  decide (97 ≤ c.toNat ∧ c.toNat ≤ 122) || decide (65 ≤ c.toNat ∧ c.toNat ≤ 90)
    || decide (48 ≤ c.toNat ∧ c.toNat ≤ 57)

/-- The character class of the JS regex `\s` (ECMAScript WhiteSpace and
LineTerminator). -/
def isJsWhitespace (c : Char) : Bool :=
  [' ', '\t', '\n', '\x0b', '\x0c', '\r', '\u00A0', '\u1680', '\u2000',
   '\u2001', '\u2002', '\u2003', '\u2004', '\u2005', '\u2006', '\u2007',
   '\u2008', '\u2009', '\u200A', '\u2028', '\u2029', '\u202F', '\u205F',
   '\u3000', '\uFEFF'].contains c

/-- Separator characters, the class `[-_]`. -/
def isSepChar (c : Char) : Bool :=
  c = '-' || c = '_'

/-- Step 1, `.replace(/[^a-zA-Z0-9\s\-_]/g, '_')`: every character outside
the class becomes an underscore. -/
def replaceSpecials (l : List Char) : List Char :=
  l.map fun c =>
    if isAlphanumAscii c || isJsWhitespace c || isSepChar c then c else '_'

/-- Step 2, `.replace(/\s+/g, '-')`: each maximal whitespace run becomes one
hyphen (`inRun` records whether the previous character was whitespace). -/
def replaceWsRuns : Bool → List Char → List Char
  | _, [] => []
  | inRun, c :: cs =>
    if isJsWhitespace c then
      if inRun then replaceWsRuns true cs else '-' :: replaceWsRuns true cs
    else c :: replaceWsRuns false cs

/-- Step 3, `.replace(/[-_]+/g, m => m[0])`: each maximal separator run keeps
only its first character. -/
def collapseSeps : Bool → List Char → List Char
  | _, [] => []
  | inRun, c :: cs =>
    if isSepChar c then
      if inRun then collapseSeps true cs else c :: collapseSeps true cs
    else c :: collapseSeps false cs

/-- Step 4, `.replace(/^[-_]+|[-_]+$/g, '')`: strip one leading and one
trailing separator run. -/
def trimSeps (l : List Char) : List Char :=
  ((l.dropWhile isSepChar).reverse.dropWhile isSepChar).reverse

/-- Model of `testNameToFilename` (`src/utils.ts`): sanitize, lowercase,
truncate to 200, fall back to `unnamed-test` when empty, append `.json`. -/
def testNameToFilename (testName : String) : String :=
  let safeName := String.mk
    (((trimSeps (collapseSeps false (replaceWsRuns false
        (replaceSpecials testName.toList)))).map Char.toLower).take 200)
  let finalName := if safeName = "" then "unnamed-test" else safeName
  finalName ++ ".json"

/-! ## Specification-side definitions used to state claims -/

/-- Lexicographic order on character lists by code point. -/
def charListLt : List Char → List Char → Bool
  | [], [] => false
  | [], _ :: _ => true
  | _ :: _, [] => false
  | c :: cs, d :: ds =>
    if c.toNat < d.toNat then true
    else if d.toNat < c.toNat then false
    else charListLt cs ds

/-- Lexicographic order on strings by code point. -/
def strLtB (a b : String) : Bool :=
  charListLt a.toList b.toList

/-- Insert a key-value pair into a key-sorted member list (insertion sort
step, stable for equal keys). -/
def insertKV (k : String) (v : Json) : JsonObj → JsonObj
  | .nil => .cons k v .nil
  | .cons k' v' qs =>
    if strLtB k k' then .cons k v (.cons k' v' qs) else .cons k' v' (insertKV k v qs)

/-- Sort object members by key (insertion sort). -/
def sortKVs : JsonObj → JsonObj
  | .nil => .nil
  | .cons k v kvs => insertKV k v (sortKVs kvs)

mutual

/-- Key-order-insensitive canonical form of a JSON value, as the spec's
"compare canonically (key order irrelevant)" would require: object members
sorted by key at every level. -/
def Json.canon : Json → Json
  | .null => .null
  | .bool b => .bool b
  | .num m e => .num m e
  | .str s => .str s
  | .arr xs => .arr (Json.canonList xs)
  | .obj kvs => .obj (sortKVs (Json.canonKVs kvs))

/-- Canonicalize every element of a JSON array. -/
def Json.canonList : JsonList → JsonList
  | .nil => .nil
  | .cons x xs => .cons (Json.canon x) (Json.canonList xs)

/-- Canonicalize every value of a JSON object member list. -/
def Json.canonKVs : JsonObj → JsonObj
  | .nil => .nil
  | .cons k v kvs => .cons k (Json.canon v) (Json.canonKVs kvs)

end

/-- Character class of the sanitized filename core: lowercase ASCII letters,
digits, hyphen, underscore. -/
def isFilenameCoreChar (c : Char) : Bool :=
  decide (97 ≤ c.toNat ∧ c.toNat ≤ 122) || decide (48 ≤ c.toNat ∧ c.toNat ≤ 57)
    || c = '-' || c = '_'

/-- Discriminator: did this outcome throw the no-match error? -/
def Outcome.isError : Outcome → Bool
  | .errorNoMatch _ => true
  | _ => false

/-- The exchange descriptor `Recorder.recordCall` builds from a live request
and response (the request side coincides with `extractRequestData`). -/
def recordedCallOf (req : RequestData) (resp : ResponseData) : RecordedCall :=
  { request := RequestMatcher.extractRequestData req
    response :=
      { status := resp.status, headers := headersToObject resp.headers, body := extractBody resp } }

/-! ## Concrete fixtures used by counterexamples and witnesses -/

/-- The default matching configuration (`config = {}`). -/
def cfgDefault : MatchingConfig := {}

/-- A stored exchange for `GET https://api.example.com/x`. -/
def c1storedCall : RecordedCall :=
  { request :=
      { method := "GET"
        url := { scheme := "https", host := "api.example.com", pathname := "/x", query := [] }
        headers := [], body := none }
    response := { status := 200, headers := [], body := "stored" } }

/-- A live request for `GET https://api.example.com/y` (no stored match). -/
def c1req : RequestData :=
  { method := "GET"
    url := { scheme := "https", host := "api.example.com", pathname := "/y", query := [] }
    headers := [], body := none }

/-- A 200 response used by the dedup scenario. -/
def c2resp : ResponseData := { status := 200, headers := [], body := "ok" }

/-- A deterministic live transport answering every request with `c2resp`. -/
def c2live : RequestData → ResponseData := fun _ => c2resp

/-- The request repeated three times in the dedup scenario. -/
def c2req : RequestData :=
  { method := "GET"
    url := { scheme := "https", host := "api.example.com", pathname := "/posts/1", query := [] }
    headers := [], body := none }

/-- A stored descriptor for `GET https://a.example.com/x`. -/
def c3recorded : RecordedRequest :=
  { method := "GET"
    url := { scheme := "https", host := "a.example.com", pathname := "/x", query := [] }
    headers := [], body := none }

/-- A live request to a different scheme and host, same path. -/
def c3incoming : RequestData :=
  { method := "GET"
    url := { scheme := "http", host := "b.example.com", pathname := "/x", query := [] }
    headers := [], body := none }

/-- A configuration that considers only the `content-type` header. -/
def c4cfg : MatchingConfig := { includeHeaders := ["content-type"] }

/-- A live request carrying a header (`authorization`) that `c4cfg` does not
consider. -/
def c4req : RequestData :=
  { method := "GET"
    url := { scheme := "https", host := "api.example.com", pathname := "/posts/1", query := [] }
    headers := [("Content-Type", "application/json"), ("Authorization", "Bearer token123")]
    body := none }

/-- The live response answering `c4req`. -/
def c4resp : ResponseData := { status := 200, headers := [("content-type", "text/plain")], body := "ok" }

/-- A live request answered with a 404 in the status-filtering scenario. -/
def c5req : RequestData :=
  { method := "GET"
    url := { scheme := "http", host := "localhost", pathname := "/test1", query := [] }
    headers := [], body := none }

/-- The 404 response for `c5req`. -/
def c5resp : ResponseData := { status := 404, headers := [], body := "Not Found" }

/-- A JSON body with keys in the order `a`, `b`. -/
def c7body1 : String := "\x7b\"a\":1,\"b\":2\x7d"

/-- The same JSON object with its keys in the order `b`, `a`. -/
def c7body2 : String := "\x7b\"b\":2,\"a\":1\x7d"

/-- A URL whose query repeats the parameter `a` with second value `2`. -/
def c9url1 : Url :=
  { scheme := "https", host := "h", pathname := "/x", query := [("a", "1"), ("a", "2")] }

/-- The same URL except the second occurrence of `a` carries value `3`. -/
def c9url2 : Url :=
  { scheme := "https", host := "h", pathname := "/x", query := [("a", "1"), ("a", "3")] }

/-! ## Helper lemmas -/

/-- The query step succeeds whenever the first value of every parameter name
agrees between the two URLs. -/
theorem matchQueryParams_of_firstVals (cfg : MatchingConfig) (u1 u2 : Url)
    (h : ∀ p, getFirst u1.query p = getFirst u2.query p) :
    RequestMatcher.matchQueryParams cfg u1 u2 = true := by
  unfold RequestMatcher.matchQueryParams
  simp only [List.all_eq_true]
  intro p hp
  simp [h p]

/-- The header step is reflexive. -/
theorem matchHeaders_self (cfg : MatchingConfig) (hs : List (String × String)) :
    RequestMatcher.matchHeaders cfg hs hs = true := by
  by_cases h : cfg.includeHeaders.isEmpty <;>
    simp [RequestMatcher.matchHeaders, h, List.all_eq_true]

/-- The body step is reflexive. -/
theorem matchBody_self (cfg : MatchingConfig) (b : Option String) :
    RequestMatcher.matchBody cfg b b = true := by
  by_cases hex : cfg.excludeBody
  · simp [RequestMatcher.matchBody, hex]
  · cases b with
    | none => simp [RequestMatcher.matchBody, hex]
    | some s =>
      by_cases hs : s = ""
      · simp [RequestMatcher.matchBody, hex, hs]
      · cases hp : Json.parse s <;> simp [RequestMatcher.matchBody, hex, hs, hp]

/-- `recordCall` is an append of the exchange built from the live data. -/
theorem recordCall_eq (req : RequestData) (resp : ResponseData) (st : List RecordedCall) :
    Recorder.recordCall req resp st = st ++ [recordedCallOf req resp] := rfl

/-- With a single stored call that matches every remaining request, a
record-mode run answers everything from that call: no state change, no live
calls. -/
theorem runRecord_all_hits (cfg : MatchingConfig) (live : RequestData → ResponseData)
    (c : RecordedCall) (rest : List RequestData)
    (h : ∀ r ∈ rest, RequestMatcher.matches' cfg c.request r = true) :
    runRecord cfg live rest [c]
      = ([c], rest.map (fun _ => Outcome.fromRecording (Replayer.createResponse c.response)), 0) := by
  induction rest with
  | nil => rfl
  | cons r rs ih =>
    have hr : RequestMatcher.matches' cfg c.request r = true := h r (List.mem_cons_self r rs)
    have hrest : ∀ r' ∈ rs, RequestMatcher.matches' cfg c.request r' = true :=
      fun r' hr' => h r' (List.mem_cons_of_mem r hr')
    simp [runRecord, interceptRecord, Recorder.findExistingCall, hr, ih hrest]

/-- Step 1 of the sanitizer leaves only alphanumerics, whitespace and
separators. -/
theorem all_replaceSpecials (l : List Char) :
    (replaceSpecials l).all (fun c => isAlphanumAscii c || isJsWhitespace c || isSepChar c) = true := by
  rw [List.all_eq_true]
  intro c hc
  rw [replaceSpecials] at hc
  obtain ⟨x, _, rfl⟩ := List.mem_map.1 hc
  by_cases h : (isAlphanumAscii x || isJsWhitespace x || isSepChar x) = true
  · simp [h]
  · simp [h]
    decide

/-- Step 2 of the sanitizer removes all whitespace, leaving alphanumerics and
separators. -/
theorem all_replaceWsRuns (inRun : Bool) (l : List Char)
    (h : l.all (fun c => isAlphanumAscii c || isJsWhitespace c || isSepChar c) = true) :
    (replaceWsRuns inRun l).all (fun c => isAlphanumAscii c || isSepChar c) = true := by
  induction l generalizing inRun with
  | nil => rfl
  | cons c cs ih =>
    rw [List.all_cons, Bool.and_eq_true] at h
    obtain ⟨hc, hcs⟩ := h
    by_cases hw : isJsWhitespace c = true
    · by_cases hr : inRun = true
      · simp [replaceWsRuns, hw, hr, ih _ hcs]
      · rw [Bool.not_eq_true] at hr
        simp only [replaceWsRuns, hw, hr, if_true, if_false, Bool.false_eq_true, ite_false,
          List.all_cons, Bool.and_eq_true]
        exact ⟨by decide, ih _ hcs⟩
    · rw [Bool.not_eq_true] at hw
      have hc' : (isAlphanumAscii c || isSepChar c) = true := by
        rcases Bool.or_eq_true_iff.1 hc with h1 | h2
        · rcases Bool.or_eq_true_iff.1 h1 with h3 | h4
          · exact Bool.or_eq_true_iff.2 (Or.inl h3)
          · rw [h4] at hw; exact absurd hw (by simp)
        · exact Bool.or_eq_true_iff.2 (Or.inr h2)
      simp [replaceWsRuns, hw, hc', ih _ hcs]

/-- Step 3 of the sanitizer only drops characters, so any character-wise
invariant is preserved. -/
theorem all_collapseSeps (p : Char → Bool) (inRun : Bool) (l : List Char)
    (h : l.all p = true) : (collapseSeps inRun l).all p = true := by
  induction l generalizing inRun with
  | nil => rfl
  | cons c cs ih =>
    rw [List.all_cons, Bool.and_eq_true] at h
    obtain ⟨hc, hcs⟩ := h
    by_cases hs : isSepChar c = true
    · by_cases hr : inRun = true
      · simp [collapseSeps, hs, hr, ih _ hcs]
      · rw [Bool.not_eq_true] at hr
        simp [collapseSeps, hs, hr, hc, ih _ hcs]
    · rw [Bool.not_eq_true] at hs
      simp [collapseSeps, hs, hc, ih _ hcs]

/-- Step 4 of the sanitizer only drops characters, so any character-wise
invariant is preserved. -/
theorem all_trimSeps (p : Char → Bool) (l : List Char)
    (h : l.all p = true) : (trimSeps l).all p = true := by
  rw [List.all_eq_true] at h ⊢
  intro c hc
  apply h
  rw [trimSeps, List.mem_reverse] at hc
  have hc2 : c ∈ (l.dropWhile isSepChar).reverse := (List.dropWhile_sublist _).subset hc
  rw [List.mem_reverse] at hc2
  exact (List.dropWhile_sublist _).subset hc2

/-- Round trip of `Char.ofNat` on a valid code point. -/
theorem char_toNat_ofNat_valid (n : Nat) (h : n.isValidChar) : (Char.ofNat n).toNat = n := by
  rw [Char.ofNat, dif_pos h]
  rfl

/-- Lowercasing an alphanumeric or separator character lands in the filename
core character class. -/
theorem toLower_filenameCore (c : Char)
    (h : (isAlphanumAscii c || isSepChar c) = true) :
    isFilenameCoreChar (Char.toLower c) = true := by
  rw [Char.toLower]
  by_cases hu : c.toNat ≥ 65 ∧ c.toNat ≤ 90
  · rw [if_pos hu]
    have hv : Nat.isValidChar (c.toNat + 32) := Or.inl (by omega)
    rw [isFilenameCoreChar, char_toNat_ofNat_valid _ hv]
    have hb : 97 ≤ c.toNat + 32 ∧ c.toNat + 32 ≤ 122 := by omega
    simp [hb]
  · rw [if_neg hu]
    rw [isFilenameCoreChar]
    rw [isAlphanumAscii, isSepChar] at h
    simp only [Bool.or_eq_true, decide_eq_true_eq] at h ⊢
    rcases h with ((h1 | h2) | h3) | h4 | h5
    · exact Or.inl (Or.inl (Or.inl h1))
    · exact absurd (And.intro h2.1 h2.2) hu
    · exact Or.inl (Or.inl (Or.inr h3))
    · exact Or.inl (Or.inr h4)
    · exact Or.inr h5

/-! ## Claims -/

/-- C1 (counterexample): in replay mode, an intercepted call with no matching
stored exchange does NOT fall back to the live transport: at this concrete
miss the interceptor issues zero live calls and throws the no-match error,
contradicting the claim that a miss issues the live call, persists the new
exchange and returns the live response without raising. -/
theorem c1_counterexample :
    Replayer.findFirstMatch cfgDefault (Replayer.getMatchableCalls cfgDefault [c1storedCall]) c1req = none
    ∧ (interceptReplay cfgDefault cfgDefault [c1storedCall] c1req).2 = 0
    ∧ Outcome.isError (interceptReplay cfgDefault cfgDefault [c1storedCall] c1req).1 = true := by
  decide

/-- C1 (amended): in replay mode, every intercepted call for which the
matching scan over the matchable stored calls yields no hit produces the
thrown `No matching recorded call found` error carrying the search
diagnostics (which are always present on a miss); no live transport call is
issued and nothing is recorded or persisted. -/
theorem c1_amended (replayerCfg matcherCfg : MatchingConfig) (calls : List RecordedCall)
    (req : RequestData)
    (h : Replayer.findFirstMatch matcherCfg (Replayer.getMatchableCalls replayerCfg calls) req = none) :
    interceptReplay replayerCfg matcherCfg calls req
      = (Outcome.errorNoMatch (Replayer.findMatchingCall replayerCfg matcherCfg calls req).searchDetails, 0)
    ∧ (Replayer.findMatchingCall replayerCfg matcherCfg calls req).searchDetails ≠ none := by
  unfold interceptReplay Replayer.findMatchingCall
  simp [h]

/-- C1 (witness): the amended theorem applied at the concrete miss. -/
theorem c1_amended_witness :
    interceptReplay cfgDefault cfgDefault [c1storedCall] c1req
      = (Outcome.errorNoMatch
          (Replayer.findMatchingCall cfgDefault cfgDefault [c1storedCall] c1req).searchDetails, 0) :=
  (c1_amended cfgDefault cfgDefault [c1storedCall] c1req (by decide)).1

/-- C2: in a record-mode session started with an empty call list, a sequence
of N ≥ 1 pairwise-equivalent requests issues exactly one live transport
call and leaves exactly one recorded exchange (built from the first request
and its live response); the first call is answered live and every later
call is answered from the already-captured exchange. -/
theorem c2_dedup (cfg : MatchingConfig) (live : RequestData → ResponseData)
    (req : RequestData) (rest : List RequestData)
    (h : ∀ r ∈ req :: rest, ∀ r' ∈ req :: rest,
      RequestMatcher.matches' cfg (RequestMatcher.extractRequestData r) r' = true) :
    runRecord cfg live (req :: rest) []
      = ([recordedCallOf req (live req)],
         Outcome.fromLive (live req)
           :: rest.map (fun _ => Outcome.fromRecording
                (Replayer.createResponse (recordedCallOf req (live req)).response)),
         1) := by
  have hmatches : ∀ r ∈ rest,
      RequestMatcher.matches' cfg (recordedCallOf req (live req)).request r = true := by
    intro r hr
    exact h req (List.mem_cons_self req rest) r (List.mem_cons_of_mem req hr)
  have step : interceptRecord cfg live [] req
      = (Recorder.recordCall req (live req) [], Outcome.fromLive (live req), 1) := rfl
  simp [runRecord, step, recordCall_eq,
    runRecord_all_hits cfg live (recordedCallOf req (live req)) rest hmatches]

/-- C2 (witness): three identical GET requests under the default config
issue one live call and persist one exchange. -/
theorem c2_dedup_witness :
    runRecord cfgDefault c2live [c2req, c2req, c2req] []
      = ([recordedCallOf c2req c2resp],
         Outcome.fromLive c2resp
           :: [c2req, c2req].map (fun _ => Outcome.fromRecording
                (Replayer.createResponse (recordedCallOf c2req (c2live c2req)).response)),
         1) :=
  c2_dedup cfgDefault c2live c2req [c2req, c2req] (by decide)

/-- C3 (counterexample): two requests to different hosts and schemes with the
same method, path, query, headers and body DO match under the default
config, contradicting the claim that a scheme or host difference makes
`matches` return false. -/
theorem c3_counterexample :
    RequestMatcher.matches' cfgDefault c3recorded c3incoming = true
    ∧ c3recorded.url.host ≠ c3incoming.url.host
    ∧ c3recorded.url.scheme ≠ c3incoming.url.scheme
    ∧ c3recorded.method = c3incoming.method
    ∧ c3recorded.url.pathname = c3incoming.url.pathname
    ∧ c3recorded.url.query = c3incoming.url.query
    ∧ c3recorded.headers = headersToObject c3incoming.headers
    ∧ c3recorded.body = parseRequestBody c3incoming := by decide

/-- C3 (amended): the URL step of `matches` compares only the pathname — a
pathname mismatch forces false, and the result is invariant under arbitrary
changes to the scheme and host of either URL (they are never consulted). -/
theorem c3_amended :
    (∀ (cfg : MatchingConfig) (recorded : RecordedRequest) (incoming : RequestData),
      recorded.url.pathname ≠ incoming.url.pathname →
      RequestMatcher.matches' cfg recorded incoming = false)
    ∧ (∀ (cfg : MatchingConfig) (recorded : RecordedRequest) (incoming : RequestData)
        (s1 h1 s2 h2 : String),
        RequestMatcher.matches' cfg
          { recorded with url := { recorded.url with scheme := s1, host := h1 } }
          { incoming with url := { incoming.url with scheme := s2, host := h2 } }
        = RequestMatcher.matches' cfg recorded incoming) := by
  constructor
  · intro cfg recorded incoming h
    unfold RequestMatcher.matches'
    simp [RequestMatcher.extractRequestData, h]
  · intro cfg recorded incoming s1 h1 s2 h2
    rfl

/-- C3 (witness): the amended theorem applied at a concrete pathname
mismatch. -/
theorem c3_amended_witness :
    RequestMatcher.matches' cfgDefault c3recorded
      { c3incoming with url := { c3incoming.url with pathname := "/z" } } = false :=
  c3_amended.1 cfgDefault c3recorded _ (by decide)

/-- C4 (code bug): with `includeHeaders = ["content-type"]`, recording the
live request persists the unconsidered `authorization` header verbatim in
the stored exchange (the claim and the repository's filtered-recording
tests require it to be wholly absent), while the no-match diagnostics
filter (`Replayer.filterHeaders`) correctly retains only the considered
header. -/
theorem c4_code_bug_eval :
    (Recorder.recordCall c4req c4resp []).map
        (fun call => getFirst call.request.headers "authorization") = [some "Bearer token123"]
    ∧ (Recorder.recordCall c4req c4resp []).map
        (fun call => getFirst call.request.headers "user-agent") = [none]
    ∧ Replayer.filterHeaders c4cfg (headersToObject c4req.headers)
        = [("content-type", "application/json")] := by decide

/-- C5 (code bug): under the default config (`recordFailedResponses` off)
`Recorder.recordCall` still captures a 404 exchange — the status check the
claim (and the repository's own tests) require is missing — while the
playback side behaves as claimed: `getMatchableCalls` excludes the 404 by
default and includes it when `recordFailedResponses` is true. -/
theorem c5_code_bug_eval :
    (Recorder.recordCall c5req c5resp []).map (fun call => call.response.status) = [404]
    ∧ Replayer.getMatchableCalls cfgDefault (Recorder.recordCall c5req c5resp []) = []
    ∧ Replayer.getMatchableCalls { recordFailedResponses := true } (Recorder.recordCall c5req c5resp [])
        = Recorder.recordCall c5req c5resp [] := by decide

/-- C6 (code bug): `saveRecording` with an empty captured list still performs
a file write, producing a fixture with `calls = []` — there is no emptiness
check and no merging with previously loaded exchanges, contrary to the
claim and to the repository's `empty-recording-fix` tests. -/
theorem c6_code_bug_eval :
    Recorder.saveRecording "2025-01-01T00:00:00.000Z" "empty-test" [] ≠ none
    ∧ Recorder.saveRecording "2025-01-01T00:00:00.000Z" "empty-test" []
        = some { meta := { recordedAt := "2025-01-01T00:00:00.000Z"
                           testName := "empty-test"
                           replayAPIVersion := "1.0.0" }
                 calls := [] } := by decide

/-- C7 (counterexample): two non-null bodies that parse to the same JSON
object up to key order (their key-sorted canonical serializations agree)
are judged NOT equal by the body step, because the comparison re-serializes
with insertion order preserved — key order is significant, contradicting
the claim's "key order irrelevant". -/
theorem c7_counterexample :
    RequestMatcher.matchBody cfgDefault (some c7body1) (some c7body2) = false
    ∧ (Json.parse c7body1).isSome = true
    ∧ (Json.parse c7body2).isSome = true
    ∧ (Json.parse c7body1).map (fun j => Json.stringify (Json.canon j))
        = (Json.parse c7body2).map (fun j => Json.stringify (Json.canon j)) := by decide

/-- C7 (amended): the body step returns true unconditionally when
`excludeBody` is set; otherwise both-null gives true and one-null gives
false; two non-null bodies that both parse as JSON are compared by
re-serialization equality — which normalizes whitespace and number
formatting but PRESERVES object key order — and if either fails to parse
(an empty string never parses) they are compared by exact string
equality. -/
theorem c7_amended :
    (∀ (cfg : MatchingConfig) (r i : Option String), cfg.excludeBody = true →
      RequestMatcher.matchBody cfg r i = true)
    ∧ (∀ cfg : MatchingConfig, RequestMatcher.matchBody cfg none none = true)
    ∧ (∀ (cfg : MatchingConfig) (s : String), cfg.excludeBody = false →
      RequestMatcher.matchBody cfg none (some s) = false
      ∧ RequestMatcher.matchBody cfg (some s) none = false)
    ∧ (∀ (cfg : MatchingConfig) (rb ib : String) (rj ij : Json), cfg.excludeBody = false →
      Json.parse rb = some rj → Json.parse ib = some ij →
      (RequestMatcher.matchBody cfg (some rb) (some ib) = true
        ↔ Json.stringify rj = Json.stringify ij))
    ∧ (∀ (cfg : MatchingConfig) (rb ib : String), cfg.excludeBody = false →
      Json.parse rb = none ∨ Json.parse ib = none →
      (RequestMatcher.matchBody cfg (some rb) (some ib) = true ↔ rb = ib)) := by
  refine ⟨?_, ?_, ?_, ?_, ?_⟩
  · intro cfg r i h
    simp [RequestMatcher.matchBody, h]
  · intro cfg
    by_cases h : cfg.excludeBody <;> simp [RequestMatcher.matchBody, h]
  · intro cfg s h
    constructor <;> simp [RequestMatcher.matchBody, h]
  · intro cfg rb ib rj ij hcfg hp1 hp2
    have hrb : rb ≠ "" := by
      intro he; rw [he, show Json.parse "" = none from rfl] at hp1; exact Option.noConfusion hp1
    have hib : ib ≠ "" := by
      intro he; rw [he, show Json.parse "" = none from rfl] at hp2; exact Option.noConfusion hp2
    simp [RequestMatcher.matchBody, hcfg, hrb, hib, hp1, hp2]
  · intro cfg rb ib hcfg h
    rcases h with hp | hp
    · by_cases hrb : rb = ""
      · simp [RequestMatcher.matchBody, hcfg, hrb]
      · by_cases hib : ib = ""
        · simp [RequestMatcher.matchBody, hcfg, hib]
        · simp [RequestMatcher.matchBody, hcfg, hrb, hib, hp]
    · by_cases hrb : rb = ""
      · simp [RequestMatcher.matchBody, hcfg, hrb]
      · by_cases hib : ib = ""
        · simp [RequestMatcher.matchBody, hcfg, hib]
        · cases hq : Json.parse rb <;> simp [RequestMatcher.matchBody, hcfg, hrb, hib, hq, hp]

/-- C7 (witness): the amended theorem applied to two bodies differing only in
whitespace, which the re-serialization comparison equates. -/
theorem c7_amended_witness :
    RequestMatcher.matchBody cfgDefault (some "\x7b\"a\": 1\x7d") (some "\x7b\"a\":1\x7d") = true :=
  (c7_amended.2.2.2.1 cfgDefault "\x7b\"a\": 1\x7d" "\x7b\"a\":1\x7d"
    (Json.obj (JsonObj.cons "a" (Json.num 1 0) JsonObj.nil))
    (Json.obj (JsonObj.cons "a" (Json.num 1 0) JsonObj.nil))
    rfl rfl rfl).mpr rfl

/-- C8: for every session-name string, the derived fixture filename is a
non-empty core of at most 200 characters followed by `.json`, and every
character of the core is a lowercase ASCII letter, a digit, `-` or `_`
(the sanitizer replaces specials with `_`, whitespace runs with `-`,
collapses and trims separators, lowercases, truncates, and falls back to
the fixed placeholder `unnamed-test` when empty). -/
theorem c8_filename_shape (s : String) :
    ∃ core : String,
      testNameToFilename s = core ++ ".json"
      ∧ core ≠ ""
      ∧ core.length ≤ 200
      ∧ core.toList.all isFilenameCoreChar = true := by
  have heq : testNameToFilename s
      = (if String.mk (((trimSeps (collapseSeps false (replaceWsRuns false
            (replaceSpecials s.toList)))).map Char.toLower).take 200) = ""
         then "unnamed-test"
         else String.mk (((trimSeps (collapseSeps false (replaceWsRuns false
            (replaceSpecials s.toList)))).map Char.toLower).take 200)) ++ ".json" := rfl
  rw [heq]
  by_cases hempty : String.mk (((trimSeps (collapseSeps false (replaceWsRuns false
      (replaceSpecials s.toList)))).map Char.toLower).take 200) = ""
  · rw [if_pos hempty]
    exact ⟨"unnamed-test", rfl, by decide, by decide, by decide⟩
  · rw [if_neg hempty]
    refine ⟨_, rfl, hempty, ?_, ?_⟩
    · show (String.mk _).length ≤ 200
      have hlen : (String.mk (((trimSeps (collapseSeps false (replaceWsRuns false
          (replaceSpecials s.toList)))).map Char.toLower).take 200)).length
          = (((trimSeps (collapseSeps false (replaceWsRuns false
          (replaceSpecials s.toList)))).map Char.toLower).take 200).length := rfl
      rw [hlen]
      exact List.length_take_le 200 _
    · show (String.mk _).toList.all isFilenameCoreChar = true
      have h1 := all_replaceSpecials s.toList
      have h2 := all_replaceWsRuns false _ h1
      have h3 := all_collapseSeps _ false _ h2
      have h4 := all_trimSeps _ _ h3
      rw [List.all_eq_true] at h4 ⊢
      intro c hc
      have hc' : c ∈ (trimSeps (collapseSeps false (replaceWsRuns false
          (replaceSpecials s.toList)))).map Char.toLower :=
        List.take_subset _ _ hc
      obtain ⟨x, hx, rfl⟩ := List.mem_map.1 hc'
      exact toLower_filenameCore x (h4 x hx)

/-- C9: the query step reads only the first value of each parameter name
(`searchParams.get`), so any two URLs whose queries agree on the first
value of every name — in particular URLs differing only in the second and
subsequent occurrences of a repeated parameter — are judged equivalent
under every config. -/
theorem c9_query_first_values (cfg : MatchingConfig) (u1 u2 : Url)
    (h : ∀ p, getFirst u1.query p = getFirst u2.query p) :
    RequestMatcher.matchQueryParams cfg u1 u2 = true :=
  matchQueryParams_of_firstVals cfg u1 u2 h

/-- C9 (witness): `?a=1&a=2` and `?a=1&a=3` differ only in the second
occurrence of `a` and are judged equivalent. -/
theorem c9_witness :
    c9url1.query ≠ c9url2.query
    ∧ RequestMatcher.matchQueryParams cfgDefault c9url1 c9url2 = true :=
  ⟨by decide, c9_query_first_values cfgDefault c9url1 c9url2 (by
    intro p
    by_cases h : p = "a" <;> simp [getFirst, c9url1, c9url2, h, eq_comm])⟩

/-- C10: `matches` is reflexive — for every config and live request, the
descriptor extracted from the request matches the request itself. -/
theorem c10_reflexive (cfg : MatchingConfig) (req : RequestData) :
    RequestMatcher.matches' cfg (RequestMatcher.extractRequestData req) req = true := by
  unfold RequestMatcher.matches'
  simp [matchQueryParams_of_firstVals, matchHeaders_self, matchBody_self,
    RequestMatcher.extractRequestData]
